import Mathlib

/-!
Verification of the Actioneer action-pipeline runtime against its
natural-language specification.

The development shallowly embeds the JavaScript sources:

* `Piper.pipe` / `Piper.#processItem` (src/browser/lib/Piper.js) — the
  concurrent worker pool returning settlement records;
* `ActionRunner.run` / `#execute` / `#evalPredicate` (the current
  ActionRunner revision) — the pipeline interpreter with WHILE / UNTIL /
  IF / SPLIT / BREAK / CONTINUE kinds, break-signal forwarding and the
  terminal `done` callback;
* `ActionHooks.callHook` / `#getActivityHookName`
  (src/browser/lib/ActionHooks.js) — hook-name mangling;
* `Activity.run` (src/lib/Activity.js) — before/after hook bracketing.

JavaScript values are modelled as `Option α` (with `none` playing the
role of `undefined`); thrown values and library error wrappers are
modelled by `RErr`; asynchronous execution is modelled by deterministic
interleaving-insensitive state (the only shared mutable state in
`pipe` is the atomically incremented item counter, and each claimed
index is written exactly once, so every interleaving yields the same
result array).
-/

namespace Actioneer

/-- Errors.  `user e` is a value thrown by user code; `sass msg cause`
models `Sass.new(msg, cause)`; `tantrum msg causes` models
`Tantrum(msg, causes)` (an aggregate error with ordered causes). -/
inductive RErr (ε : Type) : Type where
  | user (e : ε)
  | sass (msg : String) (cause : Option (RErr ε))
  | tantrum (msg : String) (causes : List (RErr ε))

/-- A settlement record: `{status: "fulfilled", value}` or
`{status: "rejected", reason}`.  The reason of a rejection is either a
caught error (`Sum.inl`) or — in `pipe`'s worker, which treats an
`Error`-instance result as a rejection — the result value itself
(`Sum.inr`). -/
inductive Settlement (α ε : Type) : Type where
  | fulfilled (value : Option α)
  | rejected (reason : Sum (RErr ε) (Option α))

namespace Piper

variable {α ε : Type}

/-- One processing step of the pipeline (`addStep`): the bound function
and its `required` flag (default `true`). -/
structure Step (α ε : Type) : Type where
  fn : Option α → Except (RErr ε) (Option α)
  required : Bool

/-- `Piper.#processItem` (src/browser/lib/Piper.js lines 185-201):
each step runs in sequence on the accumulated result; a step returning
an absent value keeps the previous result (`?? result`); an error from
a required step is wrapped (`Sass.new('Processing required step …')`)
and thrown, an error from a non-required step is swallowed and the
previous result is kept. -/
def processItem (steps : List (Step α ε)) (item : Option α) :
    Except (RErr ε) (Option α) :=
  match steps with
  | [] => .ok item
  | s :: rest =>
    match s.fn item with
    | .ok r =>
      processItem rest (match r with | none => item | some v => some v)
    | .error e =>
      if s.required then
        .error (.sass "Processing required step." (some e))
      else
        processItem rest item

/-- The settlement a `pipe` worker records for one item
(src/browser/lib/Piper.js lines 121-130): a caught error is recorded as
rejected; a result that is an `Error` instance
(`Data.isType(result, "Error")`) is also recorded as rejected with the
result as the reason; anything else is fulfilled. -/
def settleWorker (isErr : α → Bool) (r : Except (RErr ε) (Option α)) :
    Settlement α ε :=
  match r with
  | .error e => .rejected (.inl e)
  | .ok none => .fulfilled none
  | .ok (some a) =>
    if isErr a then .rejected (.inr (some a)) else .fulfilled (some a)

/-- Shared worker-pool state: the atomically claimed next index and the
`allResults` array (a slot is `none` until a worker writes it). -/
structure PoolState (α ε : Type) : Type where
  itemIndex : Nat
  results : List (Option (Settlement α ε))

/-- One worker turn: claim `currentIndex = itemIndex++`; if it is in
range, settle that item and write the settlement at the claimed index.
The claim and the write go to a fresh index each time, so the
interleaving of workers does not affect the final array. -/
def poolClaim (settle : Nat → Settlement α ε) (len : Nat)
    (s : PoolState α ε) : PoolState α ε :=
  if s.itemIndex < len then
    ⟨s.itemIndex + 1, s.results.set s.itemIndex (some (settle s.itemIndex))⟩
  else s

/-- Iterate worker turns.  With at least one worker the pool loops until
the counter passes the end, i.e. for `len` turns in total. -/
def poolRun (settle : Nat → Settlement α ε) (len : Nat) :
    Nat → PoolState α ε → PoolState α ε
  | 0, s => s
  | n + 1, s => poolRun settle len n (poolClaim settle len s)

/-- `Piper.pipe(items, maxConcurrent)` (src/browser/lib/Piper.js lines
104-163).  Setup hooks run first (`Promised.settle` + throw of the
rejected reasons); `min(maxConcurrent, items.length)` workers then drain
the shared counter; cleanup hooks run afterwards and may also throw.
Per-item failures are recorded in the result array and never thrown.
(The `abort` signal is never emitted by any collaborator in the
repository, so the abort check in the worker loop never fires and is
not modelled.) -/
def pipe (isErr : α → Bool)
    (setups teardowns : List (List (Option α) → Except (RErr ε) Unit))
    (steps : List (Step α ε)) (items : List (Option α))
    (maxConcurrent : Nat) :
    Except (RErr ε) (List (Option (Settlement α ε))) :=
  match setups.filterMap fun f =>
      match f items with | .error e => some e | .ok _ => none with
  | e :: es => .error (.tantrum "Setting up the pipeline." (e :: es))
  | [] =>
    let settle := fun i =>
      settleWorker isErr (processItem steps (items.getD i none))
    let workerCount := min maxConcurrent items.length
    let final :=
      if workerCount = 0 then List.replicate items.length none
      else (poolRun settle items.length items.length
        ⟨0, List.replicate items.length none⟩).results
    match teardowns.filterMap fun f =>
        match f items with | .error e => some e | .ok _ => none with
    | e :: es => .error (.tantrum "Tearing down the pipeline." (e :: es))
    | [] => .ok final

/-- Result-array shape after `j` successful claims. -/
def partialResults (settle : Nat → Settlement α ε) (len j : Nat) :
    List (Option (Settlement α ε)) :=
  (List.range len).map fun i => if i < j then some (settle i) else none

lemma partialResults_zero (settle : Nat → Settlement α ε) (len : Nat) :
    partialResults settle len 0 = List.replicate len none := by
  simp [partialResults, List.map_eq_replicate_iff]

lemma partialResults_length (settle : Nat → Settlement α ε) (len j : Nat) :
    (partialResults settle len j).length = len := by
  simp [partialResults]

lemma partialResults_set (settle : Nat → Settlement α ε) (len j : Nat)
    (_hj : j < len) :
    (partialResults settle len j).set j (some (settle j)) =
      partialResults settle len (j + 1) := by
  apply List.ext_getElem
  · simp [partialResults]
  · intro i hi _
    simp only [partialResults, List.getElem_set]
    by_cases hij : j = i
    · subst hij
      simp [partialResults, List.getElem_map, List.getElem_range]
    · have hi' : i < len := by
        simpa [partialResults] using hi
      simp only [if_neg hij, List.getElem_map, List.getElem_range]
      by_cases h1 : i < j
      · have h2 : i < j + 1 := Nat.lt_succ_of_lt h1
        simp [h1, h2]
      · have h2 : ¬ i < j + 1 := by
          intro h
          rcases Nat.lt_succ_iff_lt_or_eq.mp h with h | h
          · exact h1 h
          · exact hij h.symm
        simp [h1, h2]

lemma poolRun_partial (settle : Nat → Settlement α ε) (len : Nat) :
    ∀ n j, j + n = len →
      poolRun settle len n ⟨j, partialResults settle len j⟩ =
        ⟨len, partialResults settle len len⟩ := by
  intro n
  induction n with
  | zero =>
    intro j hj
    simp only [Nat.add_zero] at hj
    subst hj
    rfl
  | succ n ih =>
    intro j hj
    have hjlt : j < len := by omega
    have : poolClaim settle len ⟨j, partialResults settle len j⟩ =
        ⟨j + 1, partialResults settle len (j + 1)⟩ := by
      simp [poolClaim, hjlt, partialResults_set settle len j hjlt]
    rw [poolRun, this]
    exact ih (j + 1) (by omega)

lemma partialResults_full (settle : Nat → Settlement α ε) (len : Nat) :
    partialResults settle len len =
      (List.range len).map fun i => some (settle i) := by
  unfold partialResults
  apply List.map_congr_left
  intro i hi
  simp [List.mem_range.mp hi]

/-- Full characterisation of `pipe` with at least one worker and
non-failing lifecycle hooks: the result is exactly the input list with
every item settled at its original index. -/
lemma pipe_eq_map (isErr : α → Bool)
    (setups teardowns : List (List (Option α) → Except (RErr ε) Unit))
    (steps : List (Step α ε)) (items : List (Option α)) (k : Nat)
    (hk : 1 ≤ k)
    (hs : ∀ f ∈ setups, f items = .ok ())
    (ht : ∀ f ∈ teardowns, f items = .ok ()) :
    pipe isErr setups teardowns steps items k =
      .ok (items.map fun it =>
        some (settleWorker isErr (processItem steps it))) := by
  have hse : (setups.filterMap fun f =>
      match f items with | .error e => some e | .ok _ => none) = [] := by
    apply List.filterMap_eq_nil_iff.mpr
    intro f hf
    simp [hs f hf]
  have hte : (teardowns.filterMap fun f =>
      match f items with | .error e => some e | .ok _ => none) = [] := by
    apply List.filterMap_eq_nil_iff.mpr
    intro f hf
    simp [ht f hf]
  unfold pipe
  rw [hse, hte]
  rcases items with _ | ⟨a, items'⟩
  · simp
  · set its := a :: items' with hits
    have hw : ¬ min k its.length = 0 := by
      simp only [hits, Nat.min_eq_zero_iff]
      push_neg
      constructor
      · omega
      · simp
    simp only [hw, if_false, if_neg, not_false_eq_true]
    have h0 : (⟨0, List.replicate its.length none⟩ :
        PoolState α ε) = ⟨0, partialResults
          (fun i => settleWorker isErr (processItem steps (its.getD i none)))
          its.length 0⟩ := by
      rw [partialResults_zero]
    rw [h0, poolRun_partial _ _ its.length 0 (by omega),
      partialResults_full]
    congr 1
    apply List.ext_getElem
    · simp
    · intro i h1 h2
      simp only [List.getElem_map, List.getElem_range]
      rw [List.getD_eq_getElem its none (by simpa using h2)]

end Piper

end Actioneer

namespace Actioneer

/-- Claim C1: for every call `pipe(items, k)` with `k ≥ 1` (and
non-failing lifecycle hooks), the returned value is an array of exactly
`items.length` settlement records, the record for each item sitting at
the item's original input index, and each item's record depends only on
that item's own pipeline run — a failing item is recorded as a rejected
record (see `settleWorker`) rather than making `pipe` throw or
disturbing any other item's record. -/
theorem c1_pipe_settles_every_item {α ε : Type} (isErr : α → Bool)
    (setups teardowns : List (List (Option α) → Except (RErr ε) Unit))
    (steps : List (Piper.Step α ε)) (items : List (Option α)) (k : Nat)
    (hk : 1 ≤ k)
    (hs : ∀ f ∈ setups, f items = .ok ())
    (ht : ∀ f ∈ teardowns, f items = .ok ()) :
    ∃ r, Piper.pipe isErr setups teardowns steps items k = .ok r ∧
      r.length = items.length ∧
      ∀ (i : Nat) (it : Option α), items[i]? = some it →
        r[i]? = some (some (Piper.settleWorker isErr
          (Piper.processItem steps it))) := by
  refine ⟨items.map fun it =>
    some (Piper.settleWorker isErr (Piper.processItem steps it)),
    Piper.pipe_eq_map isErr setups teardowns steps items k hk hs ht,
    by simp, ?_⟩
  intro i it hit
  simp [List.getElem?_map, hit]

/-- Witness for C1 at a concrete input: two items, one failing step,
two workers. -/
theorem c1_pipe_settles_every_item_witness :
    ∃ r, Piper.pipe (α := Bool) (ε := Unit) (fun b => b) [] []
        [⟨fun c => if c = some true then .error (.user ()) else .ok c,
          true⟩]
        [some false, some true] 2 = .ok r ∧
      r.length = [some false, some true].length ∧
      ∀ (i : Nat) (it : Option Bool),
        [some false, some true][i]? = some it →
        r[i]? = some (some (Piper.settleWorker (fun b => b)
          (Piper.processItem
            [⟨fun c => if c = some true then .error (.user ()) else .ok c,
              true⟩] it))) :=
  c1_pipe_settles_every_item (fun b => b) [] []
    [⟨fun c => if c = some true then .error (.user ()) else .ok c, true⟩]
    [some false, some true] 2 (by decide)
    (by intro f hf; simp at hf) (by intro f hf; simp at hf)

/-- Claim C9: an item whose pipeline run completes without throwing but
whose result is an `Error` instance is recorded as
`{status: "rejected", reason: <that Error>}`, not as fulfilled. -/
theorem c9_error_result_is_rejected {α ε : Type} (isErr : α → Bool)
    (setups teardowns : List (List (Option α) → Except (RErr ε) Unit))
    (steps : List (Piper.Step α ε)) (items : List (Option α)) (k : Nat)
    (i : Nat) (it : Option α) (a : α)
    (hk : 1 ≤ k)
    (hs : ∀ f ∈ setups, f items = .ok ())
    (ht : ∀ f ∈ teardowns, f items = .ok ())
    (hit : items[i]? = some it)
    (hok : Piper.processItem steps it = .ok (some a))
    (herr : isErr a = true) :
    ∃ r, Piper.pipe isErr setups teardowns steps items k = .ok r ∧
      r[i]? = some (some (Settlement.rejected (.inr (some a)))) := by
  refine ⟨items.map fun x =>
    some (Piper.settleWorker isErr (Piper.processItem steps x)),
    Piper.pipe_eq_map isErr setups teardowns steps items k hk hs ht, ?_⟩
  simp only [List.getElem?_map, hit, Option.map_some']
  rw [hok]
  simp [Piper.settleWorker, herr]

/-- Witness for C9 at a concrete input: the single item's run returns an
`Error`-instance value and is recorded as rejected. -/
theorem c9_error_result_is_rejected_witness :
    ∃ r, Piper.pipe (α := Bool) (ε := Unit) (fun b => b) [] [] []
        [some true] 1 = .ok r ∧
      r[0]? = some (some (Settlement.rejected (.inr (some true)))) :=
  c9_error_result_is_rejected (fun b => b) [] [] [] [some true] 1 0
    (some true) true (by decide)
    (by intro f hf; simp at hf) (by intro f hf; simp at hf)
    (by simp) (by rfl) (by rfl)

namespace Hooks

/-!
Hook-name mangling (`ActionHooks.#getActivityHookName` and the
Symbol normalisation in `callHook`).  Characters are modelled by their
code points (`Nat`), with `strCodes` converting a Lean string at the
boundary; 36 is `$`, 32 is the space, 9 the tab.
-/

/-- Code points of a string. -/
def strCodes (s : String) : List Nat :=
  s.data.map Char.toNat

/-- JS regex character class `\w`: ASCII letters, digits and the
underscore (`#getActivityHookName` keeps exactly these characters of
each word). -/
def isWordChar (n : Nat) : Bool :=
  (97 ≤ n && n ≤ 122) || (65 ≤ n && n ≤ 90) || (48 ≤ n && n ≤ 57) ||
    n = 95

/-- Whitespace as removed by `String.prototype.trim` and meant by the
claim's "whitespace" (restricted to the ASCII whitespace characters:
space, tab, line feed, carriage return). -/
def isWS (n : Nat) : Bool :=
  n = 32 || n = 9 || n = 10 || n = 13

/-- `String.prototype.toLowerCase` on one character (ASCII letters are
the only case-mapped characters relevant to hook names). -/
def jsToLower (n : Nat) : Nat :=
  if 65 ≤ n && n ≤ 90 then n + 32 else n

/-- The upper-casing of `Util.capitalize` on one character (external
`@gesslar/toolkit` collaborator; modelled from its interface). -/
def jsToUpper (n : Nat) : Nat :=
  if 97 ≤ n && n ≤ 122 then n - 32 else n

/-- `Util.capitalize` on a word: upper-case the first character, keep
the rest. -/
def jsCapitalize (w : List Nat) : List Nat :=
  match w with
  | [] => []
  | c :: cs => jsToUpper c :: cs

/-- `String.prototype.split` when the separator is a predicate on
single characters: every separator character ends the current piece, so
adjacent separators and separators at either end produce empty pieces,
exactly as in JavaScript. -/
def splitOnPred (p : Nat → Bool) : List Nat → List (List Nat)
  | [] => [[]]
  | c :: cs =>
    match splitOnPred p cs with
    | [] => [[c]]
    | w :: ws => if p c then [] :: w :: ws else (c :: w) :: ws

/-- `activityName.split(" ")`: the source splits on the space character
only. -/
def splitOnSpace : List Nat → List (List Nat) :=
  splitOnPred (fun c => c = 32)

/-- `String.prototype.trim` on a word. -/
def trimChars (w : List Nat) : List Nat :=
  ((w.dropWhile isWS).reverse.dropWhile isWS).reverse

/-- `.map((a, i) => i === 0 ? a : Util.capitalize(a))`: the first word
is kept, every later word is capitalised. -/
def capTail : List (List Nat) → List (List Nat)
  | [] => []
  | w :: ws => w :: ws.map jsCapitalize

/-- `ActionHooks.#getActivityHookName(event, activityName)`
(src/browser/lib/ActionHooks.js lines 189-205): split the name on the
space character, trim each piece, drop empty pieces, keep only `\w`
characters of each word, lower-case each word, capitalise every word
after the first, join, and prefix with `event$`. -/
def getActivityHookName (event activityName : String) : List Nat :=
  strCodes event ++ 36 ::
    (capTail (((((splitOnSpace (strCodes activityName)).map
      trimChars).filter (fun w => !w.isEmpty)).map
      (fun w => w.filter isWordChar)).map
      (fun w => w.map jsToLower))).flatten

/-- The camel name exactly as claim C6 words it: lower-case the whole
activity name, split it on WHITESPACE (into maximal non-whitespace
tokens), strip each word of non-word characters, keep the first word
lowercase and capitalise subsequent words, then concatenate. -/
def claimCamelName (name : String) : List Nat :=
  (capTail ((((splitOnPred isWS ((strCodes name).map
    jsToLower)).filter (fun w => !w.isEmpty)).map
    (fun w => w.filter isWordChar)))).flatten

/-- The camel name as claim C6 reads once amended: the name is split on
the SPACE character only, each piece is then trimmed of surrounding
whitespace and dropped when it is empty; the rest is as the claim
states. -/
def amendedCamelName (name : String) : List Nat :=
  (capTail ((((splitOnSpace ((strCodes name).map jsToLower)).map
    trimChars).filter (fun w => !w.isEmpty)).map
    (fun w => w.filter isWordChar))).flatten

/-- An activity name is a string or a symbol carrying a description. -/
inductive ActivityName : Type where
  | str (s : String)
  | sym (description : String)

/-- `callHook`'s name normalisation (src/browser/lib/ActionHooks.js
lines 140-142): a Symbol-typed activity name is replaced by its
human-readable `description` before mangling. -/
def stringActivityName : ActivityName → String
  | .str s => s
  | .sym d => d

/-- The hook method name computed by `callHook` for an event kind and an
activity name. -/
def hookMethodName (event : String) (n : ActivityName) : List Nat :=
  getActivityHookName event (stringActivityName n)

lemma isWS_jsToLower (n : Nat) : isWS (jsToLower n) = isWS n := by
  unfold isWS jsToLower
  by_cases h : (65 ≤ n && n ≤ 90) = true
  · rw [if_pos h]
    simp only [Bool.and_eq_true, decide_eq_true_eq] at h
    rw [Bool.eq_iff_iff]
    simp only [Bool.or_eq_true, decide_eq_true_eq]
    omega
  · rw [if_neg h]

lemma isWordChar_jsToLower (n : Nat) :
    isWordChar (jsToLower n) = isWordChar n := by
  unfold isWordChar jsToLower
  by_cases h : (65 ≤ n && n ≤ 90) = true
  · rw [if_pos h]
    simp only [Bool.and_eq_true, decide_eq_true_eq] at h
    rw [Bool.eq_iff_iff]
    simp only [Bool.or_eq_true, Bool.and_eq_true, decide_eq_true_eq]
    omega
  · rw [if_neg h]

lemma jsToLower_eq_space (n : Nat) : (jsToLower n = 32) = (n = 32) := by
  unfold jsToLower
  by_cases h : (65 ≤ n && n ≤ 90) = true
  · rw [if_pos h]
    simp only [Bool.and_eq_true, decide_eq_true_eq] at h
    rw [eq_iff_iff]
    omega
  · rw [if_neg h]

lemma splitOnPred_ne_nil (p : Nat → Bool) (l : List Nat) :
    splitOnPred p l ≠ [] := by
  cases l with
  | nil => simp [splitOnPred]
  | cons c cs =>
    unfold splitOnPred
    cases splitOnPred p cs with
    | nil => simp
    | cons w ws => by_cases hc : p c <;> simp [hc]

lemma splitOnSpace_map_jsToLower (l : List Nat) :
    splitOnSpace (l.map jsToLower) =
      (splitOnSpace l).map (fun w => w.map jsToLower) := by
  induction l with
  | nil => rfl
  | cons c cs ih =>
    unfold splitOnSpace at *
    rw [List.map_cons]
    unfold splitOnPred
    rw [ih]
    obtain ⟨w, ws, hw⟩ :
        ∃ w ws, splitOnPred (fun c => decide (c = 32)) cs = w :: ws := by
      cases h : splitOnPred (fun c => decide (c = 32)) cs with
      | nil => exact absurd h (splitOnPred_ne_nil _ cs)
      | cons w ws => exact ⟨w, ws, rfl⟩
    rw [hw]
    simp only [List.map_cons]
    by_cases hc : c = 32
    · have hc2 : jsToLower c = 32 := by
        rw [jsToLower_eq_space]; exact hc
      simp [hc, hc2]
      rfl
    · have hc2 : ¬ jsToLower c = 32 := by
        rw [jsToLower_eq_space]; exact hc
      simp [hc, hc2]

lemma dropWhile_isWS_map (l : List Nat) :
    (l.map jsToLower).dropWhile isWS =
      (l.dropWhile isWS).map jsToLower := by
  induction l with
  | nil => rfl
  | cons c cs ih =>
    simp only [List.map_cons, List.dropWhile_cons, isWS_jsToLower]
    by_cases h : isWS c = true
    · simp [h, ih]
    · simp [h]

lemma trimChars_map_jsToLower (w : List Nat) :
    trimChars (w.map jsToLower) = (trimChars w).map jsToLower := by
  unfold trimChars
  rw [dropWhile_isWS_map, ← List.map_reverse, dropWhile_isWS_map,
    ← List.map_reverse]

lemma filter_isWordChar_map_jsToLower (w : List Nat) :
    (w.map jsToLower).filter isWordChar =
      (w.filter isWordChar).map jsToLower := by
  induction w with
  | nil => rfl
  | cons c cs ih =>
    simp only [List.map_cons, List.filter_cons, isWordChar_jsToLower]
    by_cases h : isWordChar c = true
    · simp [h, ih]
    · simp [h, ih]

lemma filter_nonEmpty_map_map (f : Nat → Nat) (ws : List (List Nat)) :
    (ws.map (fun w => w.map f)).filter (fun w => !w.isEmpty) =
      (ws.filter (fun w => !w.isEmpty)).map (fun w => w.map f) := by
  induction ws with
  | nil => rfl
  | cons w ws ih =>
    simp only [List.map_cons, List.filter_cons]
    by_cases h : w.isEmpty = true
    · have h2 : (w.map f).isEmpty = true := by
        cases w <;> simp_all
      simp [h, h2, ih]
    · have h2 : ¬ (w.map f).isEmpty = true := by
        cases w <;> simp_all
      simp [h, h2, ih]

/-- Lowering the name before splitting/trimming/stripping (as the claim
words it) computes the same word list as the source, which lowers each
word only after splitting, trimming and stripping. -/
lemma lowered_words_eq (raw : List Nat) :
    (((splitOnSpace (raw.map jsToLower)).map trimChars).filter
        (fun w => !w.isEmpty)).map (fun w => w.filter isWordChar) =
      (((((splitOnSpace raw).map trimChars).filter
        (fun w => !w.isEmpty)).map (fun w => w.filter isWordChar)).map
        (fun w => w.map jsToLower)) := by
  rw [splitOnSpace_map_jsToLower, List.map_map]
  have h1 : (trimChars ∘ fun w => w.map jsToLower) =
      fun w => (trimChars w).map jsToLower := by
    funext w
    exact trimChars_map_jsToLower w
  rw [h1]
  rw [show (fun w => (trimChars w).map jsToLower) =
      ((fun w : List Nat => w.map jsToLower) ∘ trimChars) from rfl,
    ← List.map_map, filter_nonEmpty_map_map, List.map_map]
  have h2 : ((fun w : List Nat => w.filter isWordChar) ∘
      fun w : List Nat => w.map jsToLower) =
      fun w : List Nat => (w.filter isWordChar).map jsToLower := by
    funext w
    exact filter_isWordChar_map_jsToLower w
  rw [h2]
  rw [show (fun w : List Nat => (w.filter isWordChar).map jsToLower) =
      ((fun w : List Nat => w.map jsToLower) ∘
        (fun w : List Nat => w.filter isWordChar)) from rfl,
    ← List.map_map]

/-- Claim C6 (amended): for every event kind and activity name, the hook
method name is `"{event}${camelName}"` where `camelName` is the amended
camel name (split on the space character, pieces trimmed, empty pieces
dropped; otherwise as the claim states), and a Symbol-typed activity
name is first replaced by its human-readable description before the
mangling. -/
theorem c6_hook_name_mangling :
    (∀ (event : String) (n : ActivityName),
      hookMethodName event n =
        strCodes event ++ 36 ::
          amendedCamelName (stringActivityName n)) ∧
    (∀ d : String, stringActivityName (.sym d) = d) := by
  constructor
  · intro event n
    unfold hookMethodName getActivityHookName amendedCamelName
    rw [lowered_words_eq]
  · intro d
    rfl

/-- Counterexample to claim C6 as frozen: the source splits the name on
the space character only, while the claim's "splitting it on
whitespace" would also split on a tab.  On the activity name `"a\tb"`
the source computes `before$ab` but the claim's algorithm computes
`before$aB`. -/
theorem c6_counterexample_whitespace :
    getActivityHookName "before" "a\tb" = strCodes "before$ab" ∧
    strCodes "before" ++ 36 :: claimCamelName "a\tb" =
      strCodes "before$aB" ∧
    getActivityHookName "before" "a\tb" ≠
      strCodes "before" ++ 36 :: claimCamelName "a\tb" := by
  refine ⟨by decide, by decide, by decide⟩

end Hooks

namespace Runner

/-!
The pipeline interpreter (`ActionRunner.run`, `#execute`,
`#evalPredicate` of the current ActionRunner revision).

* A context is an `Option α` (`none` is `undefined`).
* `Pipeline` models a built `ActionWrapper`: wrapper id, activities in
  insertion order, optional `done` callback.
* `run(context, parentWrapper)` is modelled by `Interp.runP` applied to
  the pipeline, the context and `parentWrapper`'s id (`Option Nat`).
* The `loop.break` event channel is modelled by the `emitted` list of
  target wrapper ids an execution publishes to its runner; `#execute`'s
  forwarder re-emits a nested runner's events upward, so `emitted`
  propagates out of nested pipelines (but not out of dynamically
  returned builders or SPLIT sub-runs, which install no forwarder).
* Executions are instrumented with a trace of events (`Ev`) recording
  predicate evaluations, body executions, break emissions and `done`
  invocations; the trace is proof instrumentation, not program state.
* Loops may diverge, so the interpreter is stratified by fuel: level
  `f + 1` uses level `f` for every sub-computation and level `0` knows
  nothing (`none` = out of fuel).
-/

/-- Activity kind constants of the current plain enum (from the shipped
Activity declaration file: WHILE 1, UNTIL 2, SPLIT 3, IF 4, BREAK 5,
CONTINUE 6). -/
def KWHILE : Nat := 1

def KUNTIL : Nat := 2

def KSPLIT : Nat := 3

def KIF : Nat := 4

def KBREAK : Nat := 5

def KCONTINUE : Nat := 6

mutual
/-- A built pipeline (`ActionWrapper`): unique wrapper id (a `Symbol`
in the source, a `Nat` here), activities in insertion order, optional
`done` callback.  The callback receives `caughtError ?? context`:
either the caught error (`Sum.inl`) or the final context
(`Sum.inr`). -/
inductive Pipeline (α ε : Type) : Type where
  | mk (wrapperId : Nat) (activities : List (ActivityM α ε))
      (done : Option (Sum (RErr ε) (Option α) →
        Except (RErr ε) (Option α)))

/-- One activity: name, kind (`none`/`some 0` mean a plain ONCE),
predicate (`#evalPredicate` boxes the result to a boolean), operation,
and the optional splitter/rejoiner of SPLIT activities.  Hooks and the
parent action do not influence the control flow modelled here. -/
inductive ActivityM (α ε : Type) : Type where
  | mk (name : String) (kind : Option Nat)
      (pred : Option α → Except (RErr ε) Bool)
      (op : OpM α ε)
      (splitter : Option (Option α → Except (RErr ε) (List (Option α))))
      (rejoiner : Option (Option α → List (Settlement α ε) →
        Except (RErr ε) (Option α)))

/-- An activity operation: a user callable, which may return a context
or — dynamically — a nested builder, or a nested builder itself
(`opKind === "ActionBuilder"`). -/
inductive OpM (α ε : Type) : Type where
  | fn (f : Option α → Except (RErr ε) (Sum (Option α) (Pipeline α ε)))
  | nested (p : Pipeline α ε)
end

/-- Trace events (proof instrumentation). -/
inductive Ev : Type where
  | predEval (name : String)
  | bodyRun (name : String)
  | breakSig (target : Nat)
  | doneCall
deriving DecidableEq, Repr

/-- Output of running a pipeline or an operation: the settled result,
the `loop.break` targets emitted to the current runner, and the event
trace. -/
structure ROut (α ε : Type) : Type where
  result : Except (RErr ε) (Option α)
  emitted : List Nat
  trace : List Ev

/-- Outcome of one activity inside the activity loop of `run`: continue
with the next activity, stop iterating this pipeline (BREAK/CONTINUE),
or fail. -/
inductive Flow (α ε : Type) : Type where
  | next (ctx : Option α)
  | stop (ctx : Option α)
  | fail (e : RErr ε)

/-- Output of one activity. -/
structure AOut (α ε : Type) : Type where
  flow : Flow α ε
  emitted : List Nat
  trace : List Ev

/-- The interpreter functions at one fuel level. -/
structure Interp (α ε : Type) : Type where
  runP : Pipeline α ε → Option α → Option Nat → Option (ROut α ε)
  runActs : Nat → List (ActivityM α ε) → Option α → Option Nat →
    Option (ROut α ε)
  runAct : Nat → ActivityM α ε → Option α → Option Nat →
    Option (AOut α ε)
  runLoop : Nat → ActivityM α ε → Option α → Bool → Option (ROut α ε)
  execOp : Nat → ActivityM α ε → Option α → Option (ROut α ε)
  subsFn : Nat → ActivityM α ε → List (Option α) →
    Option (List (Settlement α ε))
  subsNested : Pipeline α ε → List (Option α) →
    Option (List (Settlement α ε))

variable {α ε : Type}

/-- `ActionRunner.#execute(activity, context)` (current revision):
a nested-builder operation runs recursively with
`parentWrapper := activity.wrapper` (the wrapper of the pipeline
containing the activity, here `selfId`), with a forwarder re-emitting
its `loop.break` events to this runner; a callable is awaited, its
thrown error wrapped as `Sass.new("Executing activity", error)`; a
callable returning a builder runs it recursively the same way, but no
forwarder is installed on that dynamically created runner, so its
emissions are not re-emitted here. -/
def mkExecOp (I : Interp α ε) :
    Nat → ActivityM α ε → Option α → Option (ROut α ε) :=
  fun selfId a ctx =>
    match a with
    | .mk name _ _ op _ _ =>
      match op with
      | .nested p =>
        match I.runP p ctx (some selfId) with
        | none => none
        | some r => some ⟨r.result, r.emitted, .bodyRun name :: r.trace⟩
      | .fn f =>
        match f ctx with
        | .error e =>
          some ⟨.error (.sass "Executing activity" (some e)), [],
            [.bodyRun name]⟩
        | .ok (.inl c) => some ⟨.ok c, [], [.bodyRun name]⟩
        | .ok (.inr p) =>
          match I.runP p ctx (some selfId) with
          | none => none
          | some r =>
            match r.result with
            | .ok c => some ⟨.ok c, [], .bodyRun name :: r.trace⟩
            | .error e =>
              some ⟨.error (.sass "Executing activity" (some e)), [],
                .bodyRun name :: r.trace⟩

/-- The WHILE/UNTIL loop of `run`: WHILE evaluates the predicate before
the body and exits on false; both subscribe a one-shot `loop.break`
listener keyed to this pipeline's wrapper id around the body and exit
when the listener fired (`wrapper.id === actionWrapper.id`); UNTIL then
evaluates the predicate after the body and exits on true. -/
def mkRunLoop (I : Interp α ε) :
    Nat → ActivityM α ε → Option α → Bool → Option (ROut α ε) :=
  fun selfId a ctx isWhile =>
    match a with
    | .mk name _ pred _ _ _ =>
      if isWhile then
        match pred ctx with
        | .error e => some ⟨.error e, [], [.predEval name]⟩
        | .ok false => some ⟨.ok ctx, [], [.predEval name]⟩
        | .ok true =>
          match I.execOp selfId a ctx with
          | none => none
          | some r =>
            match r.result with
            | .error e =>
              some ⟨.error e, r.emitted, .predEval name :: r.trace⟩
            | .ok c =>
              if selfId ∈ r.emitted then
                some ⟨.ok c, r.emitted, .predEval name :: r.trace⟩
              else
                match I.runLoop selfId a c true with
                | none => none
                | some r2 =>
                  some ⟨r2.result, r.emitted ++ r2.emitted,
                    .predEval name :: (r.trace ++ r2.trace)⟩
      else
        match I.execOp selfId a ctx with
        | none => none
        | some r =>
          match r.result with
          | .error e => some ⟨.error e, r.emitted, r.trace⟩
          | .ok c =>
            if selfId ∈ r.emitted then
              some ⟨.ok c, r.emitted, r.trace⟩
            else
              match pred c with
              | .error e =>
                some ⟨.error e, r.emitted, r.trace ++ [.predEval name]⟩
              | .ok true =>
                some ⟨.ok c, r.emitted, r.trace ++ [.predEval name]⟩
              | .ok false =>
                match I.runLoop selfId a c false with
                | none => none
                | some r2 =>
                  some ⟨r2.result, r.emitted ++ r2.emitted,
                    r.trace ++ .predEval name :: r2.trace⟩

/-- SPLIT with a callable operation: each sub-context runs through
`#execute`, the outcomes are settled (`Promised.settle`) without the
`Error`-instance check of `pipe`'s worker.  Sub-run traces and
emissions stay inside the settlement and are not re-emitted. -/
def mkSubsFn (I : Interp α ε) :
    Nat → ActivityM α ε → List (Option α) →
      Option (List (Settlement α ε)) :=
  fun selfId a subs =>
    match subs with
    | [] => some []
    | c :: cs =>
      match I.execOp selfId a c, I.subsFn selfId a cs with
      | some r, some rest =>
        some ((match r.result with
          | .ok v => Settlement.fulfilled v
          | .error e => Settlement.rejected (.inl e)) :: rest)
      | _, _ => none

/-- The error wrapping of `Piper.#processItem` around the single
`run` step of the runner created for a SPLIT nested builder. -/
def wrapStepErr : Except (RErr ε) (Option α) → Except (RErr ε) (Option α)
  | .error e => .error (.sass "Processing required step." (some e))
  | .ok v => .ok v

/-- SPLIT with a nested builder: each sub-context is piped through a
fresh runner (`runner.pipe(splitContexts)`), i.e. each sub-context is
its own top-level run (`parentWrapper = null`) whose outcome is settled
by `pipe`'s worker (including its `Error`-instance check).  No
forwarder is installed on the fresh runner. -/
def mkSubsNested (isErr : α → Bool) (I : Interp α ε) :
    Pipeline α ε → List (Option α) → Option (List (Settlement α ε)) :=
  fun p subs =>
    match subs with
    | [] => some []
    | c :: cs =>
      match I.runP p c none, I.subsNested p cs with
      | some r, some rest =>
        some (Piper.settleWorker isErr (wrapStepErr r.result) :: rest)
      | _, _ => none

/-- Execute an activity body once and continue (the ONCE path and the
fall-through path of the kind dispatch). -/
def execAsNext (I : Interp α ε) (selfId : Nat) (a : ActivityM α ε)
    (ctx : Option α) : Option (AOut α ε) :=
  match I.execOp selfId a ctx with
  | none => none
  | some r =>
    match r.result with
    | .ok c => some ⟨.next c, r.emitted, r.trace⟩
    | .error e => some ⟨.fail e, r.emitted, r.trace⟩

/-- One activity of the activity loop of `run` (current revision,
dispatch in source order): `!kind` executes once; BREAK/CONTINUE first
require a parent wrapper — reaching one without a parent is the fatal
"Invalid use of control flow outside of context." — then evaluate the
predicate, a true BREAK emits `loop.break` with the parent wrapper and
stops iterating, a true CONTINUE just stops iterating; IF runs the body
at most once; WHILE/UNTIL loop; SPLIT requires splitter and rejoiner,
splits, settles the sub-runs and rejoins; any other kind value falls
through to the ONCE path. -/
def mkRunAct (I : Interp α ε) :
    Nat → ActivityM α ε → Option α → Option Nat → Option (AOut α ε) :=
  fun selfId a ctx parent =>
    match a with
    | .mk name kind pred op sp rj =>
      if kind = none ∨ kind = some 0 then
        execAsNext I selfId a ctx
      else
        let k := kind.getD 0
        if k = KBREAK ∨ k = KCONTINUE then
          match parent with
          | none =>
            some ⟨.fail (.sass
              "Invalid use of control flow outside of context." none),
              [], []⟩
          | some w =>
            match pred ctx with
            | .error e => some ⟨.fail e, [], [.predEval name]⟩
            | .ok true =>
              if k = KBREAK then
                some ⟨.stop ctx, [w], [.predEval name, .breakSig w]⟩
              else
                some ⟨.stop ctx, [], [.predEval name]⟩
            | .ok false => some ⟨.next ctx, [], [.predEval name]⟩
        else if k = KIF then
          match pred ctx with
          | .error e => some ⟨.fail e, [], [.predEval name]⟩
          | .ok false => some ⟨.next ctx, [], [.predEval name]⟩
          | .ok true =>
            match I.execOp selfId a ctx with
            | none => none
            | some r =>
              match r.result with
              | .ok c =>
                some ⟨.next c, r.emitted, .predEval name :: r.trace⟩
              | .error e =>
                some ⟨.fail e, r.emitted, .predEval name :: r.trace⟩
        else if k = KWHILE ∨ k = KUNTIL then
          match I.runLoop selfId a ctx (k = KWHILE) with
          | none => none
          | some r =>
            match r.result with
            | .ok c => some ⟨.next c, r.emitted, r.trace⟩
            | .error e => some ⟨.fail e, r.emitted, r.trace⟩
        else if k = KSPLIT then
          match sp, rj with
          | some splitter, some rejoiner =>
            match splitter ctx with
            | .error e => some ⟨.fail e, [], []⟩
            | .ok subs =>
              match (match op with
                | .nested p => I.subsNested p subs
                | .fn _ => I.subsFn selfId a subs) with
              | none => none
              | some settled =>
                match rejoiner ctx settled with
                | .error e => some ⟨.fail e, [], []⟩
                | .ok c2 => some ⟨.next c2, [], []⟩
          | _, _ =>
            some ⟨.fail (.sass
              "SPLIT activity requires both splitter and rejoiner."
              none), [], []⟩
        else
          execAsNext I selfId a ctx

/-- The activity loop of `run`: activities execute in insertion order;
an error thrown while processing an activity is wrapped as
`Sass.new("ActionRunner running activity", error)` and aborts the loop;
a `stop` flow (BREAK/CONTINUE) ends the loop with the current
context. -/
def mkRunActs (I : Interp α ε) :
    Nat → List (ActivityM α ε) → Option α → Option Nat →
      Option (ROut α ε) :=
  fun selfId acts ctx parent =>
    match acts with
    | [] => some ⟨.ok ctx, [], []⟩
    | a :: rest =>
      match I.runAct selfId a ctx parent with
      | none => none
      | some o =>
        match o.flow with
        | .fail e =>
          some ⟨.error (.sass "ActionRunner running activity" (some e)),
            o.emitted, o.trace⟩
        | .stop c => some ⟨.ok c, o.emitted, o.trace⟩
        | .next c =>
          match I.runActs selfId rest c parent with
          | none => none
          | some r =>
            some ⟨r.result, o.emitted ++ r.emitted, o.trace ++ r.trace⟩

/-- `ActionRunner.run(context, parentWrapper)` (current revision, lines
110-254): run the activities; then, only when a `done` callback is
registered AND there is no parent wrapper, invoke it with
`caughtError ?? context`; its return value becomes the new context; if
it throws while an activity error is pending, both causes are
aggregated in order into a `Tantrum`, otherwise its error is wrapped;
finally a pending `caughtError` is rethrown, otherwise the context is
returned. -/
def mkRunP (I : Interp α ε) :
    Pipeline α ε → Option α → Option Nat → Option (ROut α ε) :=
  fun p ctx parent =>
    match p with
    | .mk wid acts doneCb =>
      match I.runActs wid acts ctx parent with
      | none => none
      | some r =>
        match doneCb, parent with
        | some d, none =>
          match r.result with
          | .ok c =>
            match d (.inr c) with
            | .ok c2 => some ⟨.ok c2, r.emitted, r.trace ++ [.doneCall]⟩
            | .error e2 =>
              some ⟨.error (.sass "ActionRunner running done callback"
                (some e2)), r.emitted, r.trace ++ [.doneCall]⟩
          | .error e =>
            match d (.inl e) with
            | .ok _ => some ⟨.error e, r.emitted, r.trace ++ [.doneCall]⟩
            | .error e2 =>
              some ⟨.error (.tantrum "ActionRunner running done callback"
                [e, e2]), r.emitted, r.trace ++ [.doneCall]⟩
        | _, _ => some r

/-- Fuel level zero: every computation is out of fuel. -/
def interpZero : Interp α ε :=
  ⟨fun _ _ _ => none, fun _ _ _ _ => none, fun _ _ _ _ => none,
    fun _ _ _ _ => none, fun _ _ _ => none, fun _ _ _ => none,
    fun _ _ => none⟩

/-- The interpreter, stratified by fuel: level `f + 1` delegates every
sub-computation to level `f`. -/
def interp (isErr : α → Bool) : Nat → Interp α ε
  | 0 => interpZero
  | f + 1 =>
    let I := interp isErr f
    ⟨mkRunP I, mkRunActs I, mkRunAct I, mkRunLoop I, mkExecOp I,
      mkSubsFn I, mkSubsNested isErr I⟩

end Runner

namespace Runner

lemma execOp_kind_irrelevant (isErr : α → Bool) (f selfId : Nat)
    (name : String) (k1 k2 : Option Nat)
    (pred : Option α → Except (RErr ε) Bool) (op : OpM α ε)
    (sp : Option (Option α → Except (RErr ε) (List (Option α))))
    (rj : Option (Option α → List (Settlement α ε) →
      Except (RErr ε) (Option α)))
    (ctx : Option α) :
    (interp isErr f).execOp selfId (.mk name k1 pred op sp rj) ctx =
      (interp isErr f).execOp selfId (.mk name k2 pred op sp rj) ctx := by
  cases f with
  | zero => rfl
  | succ g => rfl

end Runner

open Runner in
/-- Claim C10: an activity whose kind is a truthy number equal to none
of the defined kind constants (WHILE 1, UNTIL 2, SPLIT 3, IF 4,
BREAK 5, CONTINUE 6) raises no error and executes its body exactly
once, exactly as if it were a ONCE activity: the interpreter treats it
identically to the same activity with no kind, and with a callable body
it produces exactly one body execution and no failure. -/
theorem c10_unknown_kind_runs_once {α ε : Type} (isErr : α → Bool) :
    (∀ (f selfId k : Nat) (name : String)
        (pred : Option α → Except (RErr ε) Bool) (op : OpM α ε)
        (sp : Option (Option α → Except (RErr ε) (List (Option α))))
        (rj : Option (Option α → List (Settlement α ε) →
          Except (RErr ε) (Option α)))
        (ctx : Option α) (parent : Option Nat),
        k ≠ 0 → k ≠ 1 → k ≠ 2 → k ≠ 3 → k ≠ 4 → k ≠ 5 → k ≠ 6 →
        (interp isErr (f + 1)).runAct selfId
            (.mk name (some k) pred op sp rj) ctx parent =
          (interp isErr (f + 1)).runAct selfId
            (.mk name none pred op sp rj) ctx parent) ∧
    (∀ (f selfId k : Nat) (name : String)
        (pred : Option α → Except (RErr ε) Bool)
        (f0 : Option α → Except (RErr ε) (Sum (Option α) (Pipeline α ε)))
        (sp : Option (Option α → Except (RErr ε) (List (Option α))))
        (rj : Option (Option α → List (Settlement α ε) →
          Except (RErr ε) (Option α)))
        (ctx c : Option α) (parent : Option Nat),
        k ≠ 0 → k ≠ 1 → k ≠ 2 → k ≠ 3 → k ≠ 4 → k ≠ 5 → k ≠ 6 →
        f0 ctx = .ok (.inl c) →
        (interp isErr (f + 2)).runAct selfId
            (.mk name (some k) pred (.fn f0) sp rj) ctx parent =
          some ⟨.next c, [], [.bodyRun name]⟩) := by
  constructor
  · intro f selfId k name pred op sp rj ctx parent h0 h1 h2 h3 h4 h5 h6
    have hnone : ¬ ((some k : Option Nat) = none ∨
        (some k : Option Nat) = some 0) := by simp [h0]
    simp only [interp, mkRunAct]
    rw [if_neg hnone]
    rw [if_pos (show True ∨ (none : Option Nat) = some 0 from
      Or.inl trivial)]
    have hbc : ¬ ((some k : Option Nat).getD 0 = KBREAK ∨
        (some k : Option Nat).getD 0 = KCONTINUE) := by
      simp [KBREAK, KCONTINUE, h5, h6]
    have hif : ¬ (some k : Option Nat).getD 0 = KIF := by
      simp [KIF, h4]
    have hwu : ¬ ((some k : Option Nat).getD 0 = KWHILE ∨
        (some k : Option Nat).getD 0 = KUNTIL) := by
      simp [KWHILE, KUNTIL, h1, h2]
    have hsp : ¬ (some k : Option Nat).getD 0 = KSPLIT := by
      simp [KSPLIT, h3]
    rw [if_neg hbc, if_neg hif, if_neg hwu, if_neg hsp]
    unfold execAsNext
    rw [execOp_kind_irrelevant isErr f selfId name (some k) none]
  · intro f selfId k name pred f0 sp rj ctx c parent
      h0 h1 h2 h3 h4 h5 h6 hf0
    have hnone : ¬ ((some k : Option Nat) = none ∨
        (some k : Option Nat) = some 0) := by simp [h0]
    simp only [interp, mkRunAct]
    rw [if_neg hnone]
    have hbc : ¬ ((some k : Option Nat).getD 0 = KBREAK ∨
        (some k : Option Nat).getD 0 = KCONTINUE) := by
      simp [KBREAK, KCONTINUE, h5, h6]
    have hif : ¬ (some k : Option Nat).getD 0 = KIF := by
      simp [KIF, h4]
    have hwu : ¬ ((some k : Option Nat).getD 0 = KWHILE ∨
        (some k : Option Nat).getD 0 = KUNTIL) := by
      simp [KWHILE, KUNTIL, h1, h2]
    have hsp : ¬ (some k : Option Nat).getD 0 = KSPLIT := by
      simp [KSPLIT, h3]
    rw [if_neg hbc, if_neg hif, if_neg hwu, if_neg hsp]
    unfold execAsNext
    simp only [interp, mkExecOp]
    rw [hf0]

open Runner in
/-- Witness for C10: kind `7` (no defined constant) runs the body
exactly once like a ONCE activity. -/
theorem c10_unknown_kind_runs_once_witness :
    (Runner.interp (fun _ : Nat => false) 2).runAct 0
        ((.mk "w" (some 7) (fun _ => .ok true)
          (.fn (fun c => .ok (.inl (some ((c.getD 0) + 1)))))
          none none : ActivityM Nat Nat))
        (some 4) none =
      some ⟨.next (some 5), [], [.bodyRun "w"]⟩ :=
  (c10_unknown_kind_runs_once (fun _ : Nat => false)).2 0 0 7 "w"
    (fun _ => .ok true)
    (fun c => .ok (.inl (some ((c.getD 0) + 1)))) none none
    (some 4) (some 5) none
    (by decide) (by decide) (by decide) (by decide) (by decide)
    (by decide) (by decide) rfl

open Runner in
/-- Claim C8 is contradicted by the current interpreter (`code_bug`
evidence): an activity whose kind value combines the BREAK and CONTINUE
kind constants (`5 ||| 6 = 7`) is not a fatal error — the interpreter
executes its body exactly once like a ONCE activity, while the
repository's own documentation promises that combining modes throws. -/
theorem c8_combined_kind_is_not_fatal :
    (Runner.interp (fun _ : Nat => false) 2).runAct 0
        ((.mk "multi" (some (KBREAK ||| KCONTINUE)) (fun _ => .ok true)
          (.fn (fun c => .ok (.inl (some ((c.getD 0) + 1)))))
          none none : ActivityM Nat Nat))
        (some 0) none =
      some ⟨.next (some 1), [], [.bodyRun "multi"]⟩ := rfl

open Runner in
/-- Claim C5: reaching a BREAK or CONTINUE activity while no parent
loop wrapper was supplied fails with the fatal
"Invalid use of control flow outside of context." before the activity's
predicate is evaluated (the output holds for every predicate, and the
trace contains no predicate evaluation); conversely, with a parent
wrapper supplied (as when the pipeline is the body of a WHILE/UNTIL)
the predicate is evaluated and no such error is raised: a false
predicate proceeds to the remaining activities, a true BREAK emits the
break signal and stops, a true CONTINUE just stops. -/
theorem c5_control_flow_requires_parent_loop {α ε : Type}
    (isErr : α → Bool) :
    (∀ (f selfId k : Nat) (name : String)
        (pred : Option α → Except (RErr ε) Bool) (op : OpM α ε)
        (sp : Option (Option α → Except (RErr ε) (List (Option α))))
        (rj : Option (Option α → List (Settlement α ε) →
          Except (RErr ε) (Option α)))
        (rest : List (ActivityM α ε)) (ctx : Option α),
        (k = KBREAK ∨ k = KCONTINUE) →
        (interp isErr (f + 2)).runActs selfId
            (.mk name (some k) pred op sp rj :: rest) ctx none =
          some ⟨.error (.sass "ActionRunner running activity"
              (some (.sass
                "Invalid use of control flow outside of context." none))),
            [], []⟩) ∧
    (∀ (f selfId k w : Nat) (name : String)
        (pred : Option α → Except (RErr ε) Bool) (op : OpM α ε)
        (sp : Option (Option α → Except (RErr ε) (List (Option α))))
        (rj : Option (Option α → List (Settlement α ε) →
          Except (RErr ε) (Option α)))
        (rest : List (ActivityM α ε)) (ctx : Option α),
        (k = KBREAK ∨ k = KCONTINUE) → pred ctx = .ok false →
        (interp isErr (f + 2)).runActs selfId
            (.mk name (some k) pred op sp rj :: rest) ctx (some w) =
          (match (interp isErr (f + 1)).runActs selfId rest ctx
              (some w) with
            | none => none
            | some r =>
              some ⟨r.result, r.emitted, .predEval name :: r.trace⟩)) ∧
    (∀ (f selfId w : Nat) (name : String)
        (pred : Option α → Except (RErr ε) Bool) (op : OpM α ε)
        (sp : Option (Option α → Except (RErr ε) (List (Option α))))
        (rj : Option (Option α → List (Settlement α ε) →
          Except (RErr ε) (Option α)))
        (rest : List (ActivityM α ε)) (ctx : Option α),
        pred ctx = .ok true →
        (interp isErr (f + 2)).runActs selfId
            (.mk name (some KBREAK) pred op sp rj :: rest) ctx (some w) =
          some ⟨.ok ctx, [w], [.predEval name, .breakSig w]⟩) ∧
    (∀ (f selfId w : Nat) (name : String)
        (pred : Option α → Except (RErr ε) Bool) (op : OpM α ε)
        (sp : Option (Option α → Except (RErr ε) (List (Option α))))
        (rj : Option (Option α → List (Settlement α ε) →
          Except (RErr ε) (Option α)))
        (rest : List (ActivityM α ε)) (ctx : Option α),
        pred ctx = .ok true →
        (interp isErr (f + 2)).runActs selfId
            (.mk name (some KCONTINUE) pred op sp rj :: rest) ctx
            (some w) =
          some ⟨.ok ctx, [], [.predEval name]⟩) := by
  have hset : ∀ (I : Interp α ε) (k : Nat),
      (k = KBREAK ∨ k = KCONTINUE) →
      ∀ (selfId : Nat) (name : String)
        (pred : Option α → Except (RErr ε) Bool) (op : OpM α ε)
        (sp : Option (Option α → Except (RErr ε) (List (Option α))))
        (rj : Option (Option α → List (Settlement α ε) →
          Except (RErr ε) (Option α)))
        (ctx : Option α) (parent : Option Nat),
        mkRunAct I selfId
            (.mk name (some k) pred op sp rj) ctx parent =
          (match parent with
            | none =>
              some ⟨.fail (.sass
                "Invalid use of control flow outside of context." none),
                [], []⟩
            | some w =>
              match pred ctx with
              | .error e => some ⟨.fail e, [], [.predEval name]⟩
              | .ok true =>
                if k = KBREAK then
                  some ⟨.stop ctx, [w], [.predEval name, .breakSig w]⟩
                else
                  some ⟨.stop ctx, [], [.predEval name]⟩
              | .ok false => some ⟨.next ctx, [], [.predEval name]⟩) := by
    intro I k hk selfId name pred op sp rj ctx parent
    have hnone : ¬ ((some k : Option Nat) = none ∨
        (some k : Option Nat) = some 0) := by
      rcases hk with h | h <;> subst h <;> simp [KBREAK, KCONTINUE]
    have hbc : ((some k : Option Nat).getD 0 = KBREAK ∨
        (some k : Option Nat).getD 0 = KCONTINUE) := by
      rcases hk with h | h <;> subst h <;> simp
    simp only [mkRunAct]
    rw [if_neg hnone, if_pos hbc]
    simp only [Option.getD_some]
  refine ⟨?_, ?_, ?_, ?_⟩
  · intro f selfId k name pred op sp rj rest ctx hk
    simp only [interp, mkRunActs]
    rw [hset (interp isErr f) k hk selfId name pred op sp rj ctx none]
  · intro f selfId k w name pred op sp rj rest ctx hk hp
    simp only [interp, mkRunActs]
    rw [hset (interp isErr f) k hk selfId name pred op sp rj ctx
      (some w), hp]
    rfl
  · intro f selfId w name pred op sp rj rest ctx hp
    simp only [interp, mkRunActs]
    rw [hset (interp isErr f) KBREAK (Or.inl rfl) selfId name pred op
      sp rj ctx (some w), hp]
    simp [KBREAK]
  · intro f selfId w name pred op sp rj rest ctx hp
    simp only [interp, mkRunActs]
    rw [hset (interp isErr f) KCONTINUE (Or.inr rfl) selfId name pred
      op sp rj ctx (some w), hp]
    simp [KBREAK, KCONTINUE]

open Runner in
/-- Witness for C5: a CONTINUE without a parent loop is the fatal
control-flow error; the same activity under a parent loop with a false
predicate proceeds normally. -/
theorem c5_control_flow_requires_parent_loop_witness :
    ((Runner.interp (fun _ : Nat => false) 2).runActs 0
        [(.mk "c" (some KCONTINUE) (fun _ => .ok false)
          (.fn (fun c => .ok (.inl c))) none none : ActivityM Nat Nat)]
        (some 1) none =
      some ⟨.error (.sass "ActionRunner running activity"
          (some (.sass
            "Invalid use of control flow outside of context." none))),
        [], []⟩) ∧
    ((Runner.interp (fun _ : Nat => false) 2).runActs 0
        [(.mk "c" (some KCONTINUE) (fun _ => .ok false)
          (.fn (fun c => .ok (.inl c))) none none : ActivityM Nat Nat)]
        (some 1) (some 9) =
      (match (Runner.interp (fun _ : Nat => false) 1).runActs 0
          ([] : List (ActivityM Nat Nat)) (some 1) (some 9) with
        | none => none
        | some r => some ⟨r.result, r.emitted, .predEval "c" :: r.trace⟩)) :=
  ⟨(c5_control_flow_requires_parent_loop (fun _ : Nat => false)).1 0 0
      KCONTINUE "c" (fun _ => .ok false) (.fn (fun c => .ok (.inl c)))
      none none [] (some 1) (Or.inr rfl),
    (c5_control_flow_requires_parent_loop
      (fun _ : Nat => false)).2.1 0 0 KCONTINUE 9 "c"
      (fun _ => .ok false) (.fn (fun c => .ok (.inl c)))
      none none [] (some 1) (Or.inr rfl) rfl⟩

namespace Runner

variable {α ε : Type}

/-- The interpreter appends a `doneCall` event only in `runP` when no
parent wrapper is supplied; every other trace is free of `doneCall`
(SPLIT sub-runs are top-level runs, but their traces stay inside their
settlements).  This is the invariant behind "the done callback runs
exactly once per top-level run". -/
lemma interp_no_doneCall (isErr : α → Bool) :
    ∀ f : Nat,
      (∀ (p : Pipeline α ε) (ctx : Option α) (w : Nat) (r : ROut α ε),
        (interp isErr f).runP p ctx (some w) = some r →
        Ev.doneCall ∉ r.trace) ∧
      (∀ (selfId : Nat) (acts : List (ActivityM α ε)) (ctx : Option α)
          (parent : Option Nat) (r : ROut α ε),
        (interp isErr f).runActs selfId acts ctx parent = some r →
        Ev.doneCall ∉ r.trace) ∧
      (∀ (selfId : Nat) (a : ActivityM α ε) (ctx : Option α)
          (parent : Option Nat) (o : AOut α ε),
        (interp isErr f).runAct selfId a ctx parent = some o →
        Ev.doneCall ∉ o.trace) ∧
      (∀ (selfId : Nat) (a : ActivityM α ε) (ctx : Option α)
          (r : ROut α ε),
        (interp isErr f).execOp selfId a ctx = some r →
        Ev.doneCall ∉ r.trace) ∧
      (∀ (selfId : Nat) (a : ActivityM α ε) (ctx : Option α) (b : Bool)
          (r : ROut α ε),
        (interp isErr f).runLoop selfId a ctx b = some r →
        Ev.doneCall ∉ r.trace) := by
  intro f
  induction f with
  | zero =>
    refine ⟨?_, ?_, ?_, ?_, ?_⟩
    · intro p ctx w r h
      exact absurd h (by simp [interp, interpZero])
    · intro selfId acts ctx parent r h
      exact absurd h (by simp [interp, interpZero])
    · intro selfId a ctx parent o h
      exact absurd h (by simp [interp, interpZero])
    · intro selfId a ctx r h
      exact absurd h (by simp [interp, interpZero])
    · intro selfId a ctx b r h
      exact absurd h (by simp [interp, interpZero])
  | succ g ih =>
    obtain ⟨ihP, ihActs, ihAct, ihExec, ihLoop⟩ := ih
    have hExec : ∀ (selfId : Nat) (a : ActivityM α ε) (ctx : Option α)
        (r : ROut α ε),
        mkExecOp (interp isErr g) selfId a ctx = some r →
        Ev.doneCall ∉ r.trace := by
      intro selfId a ctx r h
      obtain ⟨name, kind, pred, op, sp, rj⟩ := a
      cases op with
      | nested p =>
        simp only [mkExecOp] at h
        split at h
        · exact absurd h (by simp)
        · rename_i r0 hr
          replace h := (Option.some.inj h).symm
          subst h
          simp only [List.mem_cons, not_or]
          exact ⟨by simp, ihP _ _ _ _ hr⟩
      | fn f0 =>
        simp only [mkExecOp] at h
        split at h
        · replace h := (Option.some.inj h).symm
          subst h
          simp
        · replace h := (Option.some.inj h).symm
          subst h
          simp
        · split at h
          · exact absurd h (by simp)
          · rename_i r0 hr
            split at h
            · replace h := (Option.some.inj h).symm
              subst h
              simp only [List.mem_cons, not_or]
              exact ⟨by simp, ihP _ _ _ _ hr⟩
            · replace h := (Option.some.inj h).symm
              subst h
              simp only [List.mem_cons, not_or]
              exact ⟨by simp, ihP _ _ _ _ hr⟩
    have hExecAs : ∀ (selfId : Nat) (a : ActivityM α ε)
        (ctx : Option α) (o : AOut α ε),
        execAsNext (interp isErr g) selfId a ctx = some o →
        Ev.doneCall ∉ o.trace := by
      intro selfId a ctx o h
      unfold execAsNext at h
      split at h
      · exact absurd h (by simp)
      · rename_i r0 hre
        split at h
        · replace h := (Option.some.inj h).symm
          subst h
          show Ev.doneCall ∉ r0.trace
          exact ihExec _ _ _ _ hre
        · replace h := (Option.some.inj h).symm
          subst h
          show Ev.doneCall ∉ r0.trace
          exact ihExec _ _ _ _ hre
    have hLoop : ∀ (selfId : Nat) (a : ActivityM α ε) (ctx : Option α)
        (b : Bool) (r : ROut α ε),
        mkRunLoop (interp isErr g) selfId a ctx b = some r →
        Ev.doneCall ∉ r.trace := by
      intro selfId a ctx b r h
      obtain ⟨name, kind, pred, op, sp, rj⟩ := a
      simp only [mkRunLoop] at h
      cases b with
      | true =>
        rw [if_pos rfl] at h
        split at h
        · replace h := (Option.some.inj h).symm
          subst h
          simp
        · replace h := (Option.some.inj h).symm
          subst h
          simp
        · split at h
          · exact absurd h (by simp)
          · rename_i r0 hre
            split at h
            · replace h := (Option.some.inj h).symm
              subst h
              simp only [List.mem_cons, not_or]
              exact ⟨by simp, ihExec _ _ _ _ hre⟩
            · split at h
              · replace h := (Option.some.inj h).symm
                subst h
                simp only [List.mem_cons, not_or]
                exact ⟨by simp, ihExec _ _ _ _ hre⟩
              · split at h
                · exact absurd h (by simp)
                · rename_i r2 hrl
                  replace h := (Option.some.inj h).symm
                  subst h
                  simp only [List.mem_cons, List.mem_append, not_or]
                  exact ⟨by simp, ihExec _ _ _ _ hre,
                    ihLoop _ _ _ _ _ hrl⟩
      | false =>
        rw [if_neg (by simp)] at h
        split at h
        · exact absurd h (by simp)
        · rename_i r0 hre
          split at h
          · replace h := (Option.some.inj h).symm
            subst h
            show Ev.doneCall ∉ r0.trace
            exact ihExec _ _ _ _ hre
          · split at h
            · replace h := (Option.some.inj h).symm
              subst h
              show Ev.doneCall ∉ r0.trace
              exact ihExec _ _ _ _ hre
            · split at h
              · replace h := (Option.some.inj h).symm
                subst h
                simp only [List.mem_append, not_or]
                exact ⟨ihExec _ _ _ _ hre, by simp⟩
              · replace h := (Option.some.inj h).symm
                subst h
                simp only [List.mem_append, not_or]
                exact ⟨ihExec _ _ _ _ hre, by simp⟩
              · split at h
                · exact absurd h (by simp)
                · rename_i r2 hrl
                  replace h := (Option.some.inj h).symm
                  subst h
                  simp only [List.mem_cons, List.mem_append, not_or]
                  exact ⟨ihExec _ _ _ _ hre, by simp,
                    ihLoop _ _ _ _ _ hrl⟩
    have hAct : ∀ (selfId : Nat) (a : ActivityM α ε) (ctx : Option α)
        (parent : Option Nat) (o : AOut α ε),
        mkRunAct (interp isErr g) selfId a ctx parent = some o →
        Ev.doneCall ∉ o.trace := by
      intro selfId a ctx parent o h
      obtain ⟨name, kind, pred, op, sp, rj⟩ := a
      simp only [mkRunAct] at h
      split at h
      · exact hExecAs _ _ _ _ h
      · split at h
        · -- BREAK / CONTINUE
          split at h
          all_goals try split at h
          all_goals try split at h
          all_goals
            (replace h := (Option.some.inj h).symm
             subst h
             simp)
        · split at h
          · -- IF
            split at h
            · replace h := (Option.some.inj h).symm
              subst h
              simp
            · replace h := (Option.some.inj h).symm
              subst h
              simp
            · split at h
              · exact absurd h (by simp)
              · rename_i r0 hre
                split at h
                · replace h := (Option.some.inj h).symm
                  subst h
                  simp only [List.mem_cons, not_or]
                  exact ⟨by simp, ihExec _ _ _ _ hre⟩
                · replace h := (Option.some.inj h).symm
                  subst h
                  simp only [List.mem_cons, not_or]
                  exact ⟨by simp, ihExec _ _ _ _ hre⟩
          · split at h
            · -- WHILE / UNTIL
              split at h
              · exact absurd h (by simp)
              · rename_i r0 hrl
                split at h
                · replace h := (Option.some.inj h).symm
                  subst h
                  show Ev.doneCall ∉ r0.trace
                  exact ihLoop _ _ _ _ _ hrl
                · replace h := (Option.some.inj h).symm
                  subst h
                  show Ev.doneCall ∉ r0.trace
                  exact ihLoop _ _ _ _ _ hrl
            · split at h
              · -- SPLIT
                split at h
                · split at h
                  · replace h := (Option.some.inj h).symm
                    subst h
                    simp
                  · split at h
                    · exact absurd h (by simp)
                    · split at h
                      · replace h := (Option.some.inj h).symm
                        subst h
                        simp
                      · replace h := (Option.some.inj h).symm
                        subst h
                        simp
                · replace h := (Option.some.inj h).symm
                  subst h
                  simp
              · exact hExecAs _ _ _ _ h
    have hActs : ∀ (selfId : Nat) (acts : List (ActivityM α ε))
        (ctx : Option α) (parent : Option Nat) (r : ROut α ε),
        mkRunActs (interp isErr g) selfId acts ctx parent = some r →
        Ev.doneCall ∉ r.trace := by
      intro selfId acts ctx parent r h
      cases acts with
      | nil =>
        simp only [mkRunActs] at h
        replace h := (Option.some.inj h).symm
        subst h
        simp
      | cons a rest =>
        simp only [mkRunActs] at h
        split at h
        · exact absurd h (by simp)
        · rename_i o hro
          split at h
          · replace h := (Option.some.inj h).symm
            subst h
            show Ev.doneCall ∉ o.trace
            exact ihAct _ _ _ _ _ hro
          · replace h := (Option.some.inj h).symm
            subst h
            show Ev.doneCall ∉ o.trace
            exact ihAct _ _ _ _ _ hro
          · split at h
            · exact absurd h (by simp)
            · rename_i r2 hrr
              replace h := (Option.some.inj h).symm
              subst h
              simp only [List.mem_append, not_or]
              exact ⟨ihAct _ _ _ _ _ hro, ihActs _ _ _ _ _ hrr⟩
    refine ⟨?_, ?_, ?_, ?_, ?_⟩
    · intro p ctx w r h
      obtain ⟨wid, acts, dcb⟩ := p
      rw [show (interp isErr (g + 1)).runP =
        mkRunP (interp isErr g) from rfl] at h
      cases dcb with
      | none =>
        simp only [mkRunP] at h
        split at h
        · exact absurd h (by simp)
        · rename_i r0 hra
          replace h := (Option.some.inj h).symm
          subst h
          exact ihActs _ _ _ _ _ hra
      | some d =>
        simp only [mkRunP] at h
        split at h
        · exact absurd h (by simp)
        · rename_i r0 hra
          replace h := (Option.some.inj h).symm
          subst h
          exact ihActs _ _ _ _ _ hra
    · intro selfId acts ctx parent r h
      rw [show (interp isErr (g + 1)).runActs =
        mkRunActs (interp isErr g) from rfl] at h
      exact hActs selfId acts ctx parent r h
    · intro selfId a ctx parent o h
      rw [show (interp isErr (g + 1)).runAct =
        mkRunAct (interp isErr g) from rfl] at h
      exact hAct selfId a ctx parent o h
    · intro selfId a ctx r h
      rw [show (interp isErr (g + 1)).execOp =
        mkExecOp (interp isErr g) from rfl] at h
      exact hExec selfId a ctx r h
    · intro selfId a ctx b r h
      rw [show (interp isErr (g + 1)).runLoop =
        mkRunLoop (interp isErr g) from rfl] at h
      exact hLoop selfId a ctx b r h

end Runner

/-! ### C2: the done callback -/

/-- A single activity whose body throws (`Sass`-worthy user error 0). -/
def c2Boom : Runner.ActivityM Nat Nat :=
  .mk "boom" none (fun _ => .ok true)
    (.fn (fun _ => .error (.user 0))) none none

/-- A done callback that ignores its input and returns `some 42`. -/
def c2DoneOk :
    Sum (RErr Nat) (Option Nat) → Except (RErr Nat) (Option Nat) :=
  fun _ => .ok (some 42)

/-- The counterexample pipeline: one throwing activity plus a done
callback that returns normally. -/
def c2P : Runner.Pipeline Nat Nat := .mk 0 [c2Boom] (some c2DoneOk)

/-- A single activity whose body returns `some 7`. -/
def c2Ok : Runner.ActivityM Nat Nat :=
  .mk "a" none (fun _ => .ok true)
    (.fn (fun _ => .ok (.inl (some 7)))) none none

/-- C2, counterexample: when an activity threw, the done callback's
return value does NOT become the final result — the caught (wrapped)
activity error is rethrown after the done callback returns.  Here the
done callback returns `some 42`, yet `run` still rejects with the
wrapped activity error. -/
theorem c2_counterexample_done_return_not_final :
    (Runner.interp (fun _ : Nat => false) 4).runP c2P (some 0) none =
      some ⟨.error (.sass "ActionRunner running activity"
          (some (.sass "Executing activity" (some (.user 0))))), [],
        [.bodyRun "boom", .doneCall]⟩ ∧
    ((Runner.interp (fun _ : Nat => false) 4).runP c2P (some 0)
        none).map (fun r => r.result) ≠ some (.ok (some 42)) := by
  constructor
  · rfl
  · intro hcontra
    rw [show ((Runner.interp (fun _ : Nat => false) 4).runP c2P (some 0)
        none).map (fun r => r.result) =
      some (.error (.sass "ActionRunner running activity"
        (some (.sass "Executing activity" (some (.user 0))))))
      from rfl] at hcontra
    simp at hcontra

/-- C2 (amended): on a top-level `run` (no parent wrapper) of a pipeline
with a registered done callback, once the activity loop settles to `r`,
the done callback runs exactly once (`doneCall` appears exactly once in
the trace); it receives the caught error if one occurred, otherwise the
final context; its return value becomes the final result ONLY when no
activity error is pending — a pending activity error is rethrown even
when the done callback returns normally; if both an activity and the
done callback throw, the surfaced `Tantrum` aggregates both causes in
order; and a run with a parent wrapper behaves exactly like one whose
pipeline has no done callback at all. -/
theorem c2_done_exactly_once_error_rethrown {α ε : Type}
    (isErr : α → Bool) (f wid : Nat)
    (acts : List (Runner.ActivityM α ε))
    (d : Sum (RErr ε) (Option α) → Except (RErr ε) (Option α))
    (ctx : Option α) (r : Runner.ROut α ε)
    (hr : (Runner.interp isErr f).runActs wid acts ctx none = some r) :
    (∀ (c c2 : Option α), r.result = .ok c → d (.inr c) = .ok c2 →
      (Runner.interp isErr (f + 1)).runP (.mk wid acts (some d)) ctx
          none =
        some ⟨.ok c2, r.emitted, r.trace ++ [.doneCall]⟩) ∧
    (∀ (r2 : Runner.ROut α ε),
      (Runner.interp isErr (f + 1)).runP (.mk wid acts (some d)) ctx
          none = some r2 →
      r2.trace.count .doneCall = 1) ∧
    (∀ (e : RErr ε) (c2 : Option α), r.result = .error e →
      d (.inl e) = .ok c2 →
      (Runner.interp isErr (f + 1)).runP (.mk wid acts (some d)) ctx
          none =
        some ⟨.error e, r.emitted, r.trace ++ [.doneCall]⟩) ∧
    (∀ (e e2 : RErr ε), r.result = .error e → d (.inl e) = .error e2 →
      (Runner.interp isErr (f + 1)).runP (.mk wid acts (some d)) ctx
          none =
        some ⟨.error (.tantrum "ActionRunner running done callback"
          [e, e2]), r.emitted, r.trace ++ [.doneCall]⟩) ∧
    (∀ (c : Option α) (e2 : RErr ε), r.result = .ok c →
      d (.inr c) = .error e2 →
      (Runner.interp isErr (f + 1)).runP (.mk wid acts (some d)) ctx
          none =
        some ⟨.error (.sass "ActionRunner running done callback"
          (some e2)), r.emitted, r.trace ++ [.doneCall]⟩) ∧
    (∀ (w : Nat),
      (Runner.interp isErr (f + 1)).runP (.mk wid acts (some d)) ctx
          (some w) =
        (Runner.interp isErr (f + 1)).runP (.mk wid acts none) ctx
          (some w)) := by
  refine ⟨?_, ?_, ?_, ?_, ?_, ?_⟩
  · intro c c2 hres hd
    rw [show (Runner.interp isErr (f + 1)).runP =
      Runner.mkRunP (Runner.interp isErr f) from rfl]
    simp only [Runner.mkRunP, hr, hres, hd]
  · intro r2 h2
    have hnd : Runner.Ev.doneCall ∉ r.trace :=
      (Runner.interp_no_doneCall isErr f).2.1 wid acts ctx none r hr
    rw [show (Runner.interp isErr (f + 1)).runP =
      Runner.mkRunP (Runner.interp isErr f) from rfl] at h2
    simp only [Runner.mkRunP, hr] at h2
    split at h2
    all_goals try split at h2
    all_goals
      (replace h2 := (Option.some.inj h2).symm
       subst h2
       simp [List.count_append, List.count_cons,
         List.count_eq_zero.mpr hnd])
  · intro e c2 hres hd
    rw [show (Runner.interp isErr (f + 1)).runP =
      Runner.mkRunP (Runner.interp isErr f) from rfl]
    simp only [Runner.mkRunP, hr, hres, hd]
  · intro e e2 hres hd
    rw [show (Runner.interp isErr (f + 1)).runP =
      Runner.mkRunP (Runner.interp isErr f) from rfl]
    simp only [Runner.mkRunP, hr, hres, hd]
  · intro c e2 hres hd
    rw [show (Runner.interp isErr (f + 1)).runP =
      Runner.mkRunP (Runner.interp isErr f) from rfl]
    simp only [Runner.mkRunP, hr, hres, hd]
  · intro w
    rw [show (Runner.interp isErr (f + 1)).runP =
      Runner.mkRunP (Runner.interp isErr f) from rfl]
    cases hra : (Runner.interp isErr f).runActs wid acts ctx (some w)
      with
    | none => simp only [Runner.mkRunP, hra]
    | some r2 => simp only [Runner.mkRunP, hra]

/-- C2 witness: the single-activity pipeline with body `some 7` and done
callback `c2DoneOk`; the done callback's return `some 42` is the final
result and `doneCall` is traced once. -/
theorem c2_done_exactly_once_error_rethrown_witness :
    (Runner.interp (fun _ : Nat => false) 3).runActs 0 [c2Ok] (some 1)
        none = some ⟨.ok (some 7), [], [.bodyRun "a"]⟩ ∧
    (Runner.interp (fun _ : Nat => false) 4).runP
        (.mk 0 [c2Ok] (some c2DoneOk)) (some 1) none =
      some ⟨.ok (some 42), [], [.bodyRun "a", .doneCall]⟩ :=
  ⟨rfl,
    (c2_done_exactly_once_error_rethrown (fun _ : Nat => false) 3 0
        [c2Ok] c2DoneOk (some 1) ⟨.ok (some 7), [], [.bodyRun "a"]⟩
        rfl).1
      (some 7) (some 42) rfl rfl⟩

/-! ### C3: break scoping -/

/-- C3: a `loop.break` signal carries the enclosing loop's wrapper id
and is scoped to it: (i) a BREAK activity with a true predicate and a
parent wrapper emits exactly that wrapper's id and stops its own
pipeline; (ii) a nested-builder body re-emits (forwards) the emissions
of its inner run to the enclosing runner; (iii) a WHILE loop whose body
run emitted the loop's own id exits and does not enter the body again;
(iv) an UNTIL loop does the same, without evaluating its
post-predicate; (v) a loop whose body emitted only other ids is
unaffected and iterates again. -/
theorem c3_break_scoped_to_matching_loop {α ε : Type}
    (isErr : α → Bool) (f selfId : Nat) (name : String)
    (kind : Option Nat) (pred : Option α → Except (RErr ε) Bool)
    (op : Runner.OpM α ε)
    (sp : Option (Option α → Except (RErr ε) (List (Option α))))
    (rj : Option (Option α → List (Settlement α ε) →
      Except (RErr ε) (Option α))) :
    (∀ (ctx : Option α) (w : Nat), pred ctx = .ok true →
      (Runner.interp isErr (f + 1)).runAct selfId
          (.mk name (some Runner.KBREAK) pred op sp rj) ctx (some w) =
        some ⟨.stop ctx, [w], [.predEval name, .breakSig w]⟩) ∧
    (∀ (p : Runner.Pipeline α ε) (ctx : Option α)
        (r : Runner.ROut α ε),
      (Runner.interp isErr f).runP p ctx (some selfId) = some r →
      (Runner.interp isErr (f + 1)).execOp selfId
          (.mk name kind pred (.nested p) sp rj) ctx =
        some ⟨r.result, r.emitted, .bodyRun name :: r.trace⟩) ∧
    (∀ (ctx c : Option α) (r : Runner.ROut α ε),
      pred ctx = .ok true →
      (Runner.interp isErr f).execOp selfId
          (.mk name kind pred op sp rj) ctx = some r →
      r.result = .ok c → selfId ∈ r.emitted →
      (Runner.interp isErr (f + 1)).runLoop selfId
          (.mk name kind pred op sp rj) ctx true =
        some ⟨.ok c, r.emitted, .predEval name :: r.trace⟩) ∧
    (∀ (ctx c : Option α) (r : Runner.ROut α ε),
      (Runner.interp isErr f).execOp selfId
          (.mk name kind pred op sp rj) ctx = some r →
      r.result = .ok c → selfId ∈ r.emitted →
      (Runner.interp isErr (f + 1)).runLoop selfId
          (.mk name kind pred op sp rj) ctx false =
        some ⟨.ok c, r.emitted, r.trace⟩) ∧
    (∀ (ctx c : Option α) (r r2 : Runner.ROut α ε),
      pred ctx = .ok true →
      (Runner.interp isErr f).execOp selfId
          (.mk name kind pred op sp rj) ctx = some r →
      r.result = .ok c → selfId ∉ r.emitted →
      (Runner.interp isErr f).runLoop selfId
          (.mk name kind pred op sp rj) c true = some r2 →
      (Runner.interp isErr (f + 1)).runLoop selfId
          (.mk name kind pred op sp rj) ctx true =
        some ⟨r2.result, r.emitted ++ r2.emitted,
          .predEval name :: (r.trace ++ r2.trace)⟩) := by
  refine ⟨?_, ?_, ?_, ?_, ?_⟩
  · intro ctx w hp
    rw [show (Runner.interp isErr (f + 1)).runAct =
      Runner.mkRunAct (Runner.interp isErr f) from rfl]
    simp [Runner.mkRunAct, Runner.KBREAK, Runner.KCONTINUE, hp]
  · intro p ctx r hr
    rw [show (Runner.interp isErr (f + 1)).execOp =
      Runner.mkExecOp (Runner.interp isErr f) from rfl]
    simp only [Runner.mkExecOp, hr]
  · intro ctx c r hp he hres hin
    rw [show (Runner.interp isErr (f + 1)).runLoop =
      Runner.mkRunLoop (Runner.interp isErr f) from rfl]
    simp [Runner.mkRunLoop, hp, he, hres, hin]
  · intro ctx c r he hres hin
    rw [show (Runner.interp isErr (f + 1)).runLoop =
      Runner.mkRunLoop (Runner.interp isErr f) from rfl]
    simp [Runner.mkRunLoop, he, hres, hin]
  · intro ctx c r r2 hp he hres hin hr2
    rw [show (Runner.interp isErr (f + 1)).runLoop =
      Runner.mkRunLoop (Runner.interp isErr f) from rfl]
    simp [Runner.mkRunLoop, hp, he, hres, hin, hr2]

/-- C3 witness: a BREAK activity with parent wrapper 9 and an always
true predicate stops and emits exactly the parent id 9. -/
theorem c3_break_scoped_to_matching_loop_witness :
    (fun _ : Option Nat => (.ok true : Except (RErr Nat) Bool))
        (some 0) = .ok true ∧
    (Runner.interp (fun _ : Nat => false) 3 :
        Runner.Interp Nat Nat).runAct 5
        (.mk "br" (some Runner.KBREAK) (fun _ => .ok true)
          (.fn (fun c => .ok (.inl c))) none none)
        (some 0) (some 9) =
      some ⟨.stop (some 0), [9], [.predEval "br", .breakSig 9]⟩ :=
  ⟨rfl,
    (c3_break_scoped_to_matching_loop (fun _ : Nat => false) 2 5 "br"
        none (fun _ => .ok true) (.fn (fun c => .ok (.inl c))) none
        none).1 (some 0) 9 rfl⟩

/-! ### C4: context propagation when a body returns nothing -/

/-- An activity whose body returns the absent value (`undefined`). -/
def c4ActA : Runner.ActivityM Nat Nat :=
  .mk "a" none (fun _ => .ok true) (.fn (fun _ => .ok (.inl none)))
    none none

/-- An activity whose body discriminates on the context it receives:
`some 3` (the seed) maps to `some 1`, anything else to `some 0`. -/
def c4ActB : Runner.ActivityM Nat Nat :=
  .mk "b" none (fun _ => .ok true)
    (.fn (fun c => .ok (.inl (match c with
      | some 3 => some 1
      | _ => some 0)))) none none

/-- The two-activity pipeline of the C4 run. -/
def c4P : Runner.Pipeline Nat Nat := .mk 0 [c4ActA, c4ActB] none

/-- C4: `run` assigns the body's return value to the context
unconditionally (`context = await this.#execute(activity, context)`,
no `?? context`), so after a body returns the absent value the next
activity receives the absent value, not the previous context.  Seeded
with `some 3`, activity `a` returns nothing and activity `b` then sees
the absent value (final result `some 0`); under the claimed retention
semantics `b` would have seen `some 3` (final result `some 1`). -/
theorem c4_undefined_return_not_retained :
    (Runner.interp (fun _ : Nat => false) 6 :
        Runner.Interp Nat Nat).runP c4P (some 3) none =
      some ⟨.ok (some 0), [], [.bodyRun "a", .bodyRun "b"]⟩ ∧
    ((Runner.interp (fun _ : Nat => false) 6 :
        Runner.Interp Nat Nat).runP c4P (some 3) none).map
        (fun r => r.result) ≠ some (.ok (some 1)) := by
  constructor
  · rfl
  · intro hcontra
    rw [show ((Runner.interp (fun _ : Nat => false) 6 :
        Runner.Interp Nat Nat).runP c4P (some 3) none).map
        (fun r => r.result) = some (.ok (some 0)) from rfl] at hcontra
    simp at hcontra

/-! ### C7: before/after hooks around an activity body

Model of `Activity.run` (src/src/lib/Activity.js): the `before` hook is
awaited, then the operation, then the `after` hook — both hooks receive
the original `context`; a throwing operation propagates before the
`after` hook is reached.  `ActionHooks.callHook` is a no-op when the
hook source has no such method, and wraps a hook error (twice) as
`Sass("Processing hook {kind}${name}", ...)`. -/

namespace Act

/-- Hook/body invocation events. -/
inductive HEv : Type where
  | beforeCalled (name : String)
  | bodyRan (name : String)
  | afterCalled (name : String)
deriving DecidableEq, Repr

/-- A hook source: the optional methods found under the mangled names
`before$N` / `after$N` for the activity name `N` in play. -/
structure HookSource (α ε : Type) : Type where
  before : Option (Option α → Except (RErr ε) Unit)
  after : Option (Option α → Except (RErr ε) Unit)

/-- `ActionHooks.callHook`: nothing happens when the hook is absent; a
present hook is invoked with the context, and an error it throws is
wrapped twice with `Processing hook {kind}${activityName}` (inner and
outer catch). -/
def callHook (ev : HEv) (kindName : String)
    (hook : Option (Option α → Except (RErr ε) Unit))
    (ctx : Option α) : List HEv × Except (RErr ε) Unit :=
  match hook with
  | none => ([], .ok ())
  | some h =>
    match h ctx with
    | .ok _ => ([ev], .ok ())
    | .error e =>
      ([ev], .error (.sass (String.append "Processing hook " kindName)
        (some (.sass (String.append "Processing hook " kindName)
          (some e)))))

/-- `Activity.run(context)`: before hook, operation, after hook, in
that order; both hooks receive the original context; the operation
result is returned. -/
def activityRun (name : String) (hooks : Option (HookSource α ε))
    (op : Option α → Except (RErr ε) (Option α)) (ctx : Option α) :
    List HEv × Except (RErr ε) (Option α) :=
  match hooks with
  | none =>
    match op ctx with
    | .ok v => ([.bodyRan name], .ok v)
    | .error e => ([.bodyRan name], .error e)
  | some hs =>
    match callHook (.beforeCalled name)
        (String.append "before$" name) hs.before ctx with
    | (t1, .error e) => (t1, .error e)
    | (t1, .ok _) =>
      match op ctx with
      | .error e => (t1 ++ [.bodyRan name], .error e)
      | .ok v =>
        match callHook (.afterCalled name)
            (String.append "after$" name) hs.after ctx with
        | (t2, .error e) => (t1 ++ .bodyRan name :: t2, .error e)
        | (t2, .ok _) => (t1 ++ .bodyRan name :: t2, .ok v)

end Act

/-- C7: with a hook source exposing both `before$N` and `after$N` (and
those hooks returning normally), a successful body yields exactly the
event sequence before-body-after, so each hook runs exactly once,
immediately around the body; when the body throws, the trace is exactly
before-body and the after hook is never called. -/
theorem c7_hooks_bracket_the_body {α ε : Type} (name : String)
    (bf af : Option α → Except (RErr ε) Unit)
    (op : Option α → Except (RErr ε) (Option α)) (ctx : Option α) :
    (∀ (v : Option α), op ctx = .ok v → bf ctx = .ok () →
      af ctx = .ok () →
      Act.activityRun name (some ⟨some bf, some af⟩) op ctx =
        ([.beforeCalled name, .bodyRan name, .afterCalled name],
          .ok v)) ∧
    (∀ (e : RErr ε), op ctx = .error e → bf ctx = .ok () →
      (Act.activityRun name (some ⟨some bf, some af⟩) op ctx).1 =
        [.beforeCalled name, .bodyRan name] ∧
      Act.HEv.afterCalled name ∉
        (Act.activityRun name (some ⟨some bf, some af⟩) op ctx).1) := by
  constructor
  · intro v hop hbf haf
    simp only [Act.activityRun, Act.callHook, hbf, hop, haf]
    rfl
  · intro e hop hbf
    constructor
    · simp only [Act.activityRun, Act.callHook, hbf, hop]
      rfl
    · simp only [Act.activityRun, Act.callHook, hbf, hop]
      simp

/-- C7 witness: a body returning `some 5` between two trivially
succeeding hooks produces exactly the before-body-after sequence. -/
theorem c7_hooks_bracket_the_body_witness :
    (fun _ : Option Nat =>
      (.ok (some 5) : Except (RErr Nat) (Option Nat))) (some 2) =
        .ok (some 5) ∧
    Act.activityRun "n"
        (some ⟨some (fun _ => .ok ()), some (fun _ => .ok ())⟩)
        (fun _ : Option Nat =>
          (.ok (some 5) : Except (RErr Nat) (Option Nat))) (some 2) =
      ([.beforeCalled "n", .bodyRan "n", .afterCalled "n"],
        .ok (some 5)) :=
  ⟨rfl,
    (c7_hooks_bracket_the_body "n" (fun _ => .ok ()) (fun _ => .ok ())
        (fun _ : Option Nat =>
          (.ok (some 5) : Except (RErr Nat) (Option Nat)))
        (some 2)).1 (some 5) rfl rfl rfl⟩

end Actioneer
